import Mathlib

/-!
Verification of the Warper image-warping application core against its
natural-language specification.

The development shallowly embeds the relevant program parts:

* `src/utils/hdr.ts` (`createHDRFile`): Radiance RGBE export, modelled over `ℚ`
  with `Int.log` for the exact `floor(log2 …)` of the specification.
* `src/utils/webgl.ts` (`cleanupHistory`) and the history-commit logic of
  `WarperContext.tsx` / `WarpCanvas.tsx` (`handlePointerUp`, `onHistoryChange`,
  `handleRedo`), modelled on lists of texture identifiers.
* `src/shaders/brushShader.ts` and `src/shaders/displayShader.ts` fragment
  shaders, modelled over `ℝ` (brush, needs `sqrt`/`pow`) and `ℚ` (display).
* the `exportAtResolution` argument-validation cascade of the warp canvas,
  modelled over a small JavaScript-value type.
* the pointer/touch interaction flags of the warp canvas, modelled as a state
  machine over the component's boolean state variables.

Specification-side formulas carry a `spec_` name and are written from the
specification text so that the theorems compare them with the source-derived
definitions.
-/

namespace Warper

/-! ## Byte-level helpers -/

/-- Bytes of a string, one per character (the header text is pure ASCII, so
UTF-8 bytes coincide with code points as produced by `TextEncoder`). -/
def stringBytes (s : String) : List ℕ :=
  s.data.map Char.toNat

/-- Model of JavaScript `Array.prototype.join("\n")`: interleave the line
strings with single newline characters. -/
def joinNl : List String → String
  | [] => ""
  | [s] => s
  | s :: rest => s ++ "\n" ++ joinNl rest

theorem stringBytes_append (a b : String) :
    stringBytes (a ++ b) = stringBytes a ++ stringBytes b := by
  simp [stringBytes, String.data_append]

/-! ## Radiance RGBE export (`src/utils/hdr.ts`, `createHDRFile`)

The source clamps each channel at `0`, takes the channel maximum, emits
`(0,0,0,0)` for maxima below `1e-32`, and otherwise computes
`exponent = clamp(floor(log2(max)) + 1, -128, 127)`,
`scale = 2^(-exponent) * 256`, mantissas `min(255, max(0, floor(c*scale + 0.5)))`
and the biased exponent byte `exponent + 128`.  `Int.log 2 m` is the exact
`floor(log2 m)` for positive rationals. -/

/-- RGBE encoding of one pixel, translated from the per-pixel loop body of
`createHDRFile` in `src/utils/hdr.ts` (lines 24–59). -/
def rgbePixel (r g b : ℚ) : List ℕ :=
  let r0 := max 0 r
  let g0 := max 0 g
  let b0 := max 0 b
  let m := max r0 (max g0 b0)
  if m < 1 / 10 ^ 32 then [0, 0, 0, 0]
  else
    let e : ℤ := max (-128) (min 127 (Int.log 2 m + 1))
    let scale : ℚ := 2 ^ (-e) * 256
    [(min 255 (max 0 ⌊r0 * scale + 1 / 2⌋)).toNat,
      (min 255 (max 0 ⌊g0 * scale + 1 / 2⌋)).toNat,
      (min 255 (max 0 ⌊b0 * scale + 1 / 2⌋)).toNat,
      (e + 128).toNat]

/-- Header lines of the HDR file exactly as listed in the source array that is
subsequently joined with `"\n"`. -/
def hdrHeaderLines (width height : ℕ) : List String :=
  ["#?RADIANCE",
    "# Created by Warper App - HDR Export",
    "FORMAT=32-bit_rle_rgbe",
    "EXPOSURE=1.0",
    "GAMMA=1.0",
    "",
    s!"-Y {height} +X {width}",
    ""]

/-- The joined header string (`header.join("\n")` in the source). -/
def hdrHeader (width height : ℕ) : String :=
  joinNl (hdrHeaderLines width height)

/-- The pixel-data section: raw RGBE quadruplets in index order (row-major,
top row first in the buffer handed to `createHDRFile`). -/
def rgbeData (floatPixels : List ℚ) (width height : ℕ) : List ℕ :=
  (List.range (width * height)).flatMap fun i =>
    rgbePixel (floatPixels.getD (i * 4) 0) (floatPixels.getD (i * 4 + 1) 0)
      (floatPixels.getD (i * 4 + 2) 0)

/-- Full byte stream produced by `createHDRFile`: encoded header followed by
the raw RGBE data. -/
def createHDRFile (floatPixels : List ℚ) (width height : ℕ) : List ℕ :=
  stringBytes (hdrHeader width height) ++ rgbeData floatPixels width height

/-- Specification-side RGBE pixel encoding, written from the specification
text: `max = max(r,g,b)`; below `1e-32` emit `(0,0,0,0)`; otherwise
`exponent = clamp(floor(log2 max) + 1, -128, 127)`, `scale = 2^(-exponent)*256`,
mantissa `clamp(round(channel*scale), 0, 255)`, stored byte `exponent + 128`. -/
noncomputable def spec_rgbePixel (r g b : ℝ) : List ℕ :=
  let m := max r (max g b)
  if m < 1 / 10 ^ 32 then [0, 0, 0, 0]
  else
    let e : ℤ := min 127 (max (-128) (⌊Real.logb 2 m⌋ + 1))
    let scale : ℝ := 2 ^ (-e) * 256
    [(min 255 (max 0 (round (r * scale)))).toNat,
      (min 255 (max 0 (round (g * scale)))).toNat,
      (min 255 (max 0 (round (b * scale)))).toNat,
      (e + 128).toNat]

theorem rgbePixel_zero : rgbePixel 0 0 0 = [0, 0, 0, 0] := by
  simp only [rgbePixel]
  norm_num

theorem intLog_ratCast (q : ℚ) (hq : 0 < q) : Int.log 2 ((q : ℝ)) = Int.log 2 q := by
  have h2 : (1 : ℕ) < 2 := by norm_num
  have hq' : (0 : ℝ) < (q : ℝ) := by exact_mod_cast hq
  have hle : Int.log 2 q ≤ Int.log 2 ((q : ℝ)) := by
    rw [← Int.zpow_le_iff_le_log h2 hq']
    have h5 : ((2 : ℚ) ^ Int.log 2 q : ℚ) ≤ q := Int.zpow_log_le_self h2 hq
    have h6 : (((2 : ℚ) ^ Int.log 2 q : ℚ) : ℝ) ≤ (q : ℝ) := by exact_mod_cast h5
    push_cast at h6
    convert h6 using 2
  have hlt : Int.log 2 ((q : ℝ)) ≤ Int.log 2 q := by
    by_contra hc
    push_neg at hc
    have h1 : Int.log 2 q + 1 ≤ Int.log 2 ((q : ℝ)) := hc
    have h2' := (Int.zpow_le_iff_le_log h2 hq').mpr h1
    have h3 : q < (2 : ℚ) ^ (Int.log 2 q + 1) := Int.lt_zpow_succ_log_self h2 q
    have h4 : (q : ℝ) < (((2 : ℚ) ^ (Int.log 2 q + 1) : ℚ) : ℝ) := by exact_mod_cast h3
    push_cast at h4
    have h7 : ((2 : ℕ) : ℝ) ^ (Int.log 2 q + 1) ≤ (q : ℝ) := h2'
    norm_num at h7
    linarith
  omega

theorem round_ratCast_scale (x : ℚ) (e : ℤ) :
    round ((x : ℝ) * ((2 : ℝ) ^ (-e) * 256)) = ⌊x * ((2 : ℚ) ^ (-e) * 256) + 1 / 2⌋ := by
  rw [round_eq]
  have h : ((x * ((2 : ℚ) ^ (-e) * 256) + 1 / 2 : ℚ) : ℝ)
      = (x : ℝ) * ((2 : ℝ) ^ (-e) * 256) + 1 / 2 := by
    push_cast
    ring
  rw [← h, Rat.floor_cast]

/-- C2.  The RGBE pixel bytes produced by the code agree with the
specification formula (exponent `clamp(floor(log2 max)+1, -128, 127)`,
scale `2^(-exponent)*256`, mantissas `clamp(round(c*scale),0,255)`, biased
exponent byte), and the all-zero pixel encodes to `(0,0,0,0)`. -/
theorem rgbe_pixel_matches_spec (r g b : ℚ) (hr : 0 ≤ r) (hg : 0 ≤ g) (hb : 0 ≤ b) :
    rgbePixel r g b = spec_rgbePixel (r : ℝ) (g : ℝ) (b : ℝ) ∧
      rgbePixel 0 0 0 = [0, 0, 0, 0] := by
  refine ⟨?_, rgbePixel_zero⟩
  simp only [rgbePixel, spec_rgbePixel, max_eq_right hr, max_eq_right hg, max_eq_right hb]
  have hmR : max (r : ℝ) (max (g : ℝ) (b : ℝ)) = ((max r (max g b) : ℚ) : ℝ) := by
    push_cast
    rfl
  rw [hmR]
  have h132 : ((1 / 10 ^ 32 : ℚ) : ℝ) = 1 / 10 ^ 32 := by
    push_cast
    norm_num
  by_cases hsmall : max r (max g b) < 1 / 10 ^ 32
  · rw [if_pos hsmall, if_pos (by rw [← h132]; exact_mod_cast hsmall)]
  · have hsmallR : ¬ (((max r (max g b) : ℚ) : ℝ) < 1 / 10 ^ 32) := by
      rw [← h132]
      intro hcon
      exact hsmall (by exact_mod_cast hcon)
    rw [if_neg hsmall, if_neg hsmallR]
    have hm0 : 0 < max r (max g b) :=
      lt_of_lt_of_le (by norm_num) (not_lt.mp hsmall)
    have hlogb : ⌊Real.logb 2 ((max r (max g b) : ℚ) : ℝ)⌋ = Int.log 2 (max r (max g b)) := by
      rw [show (2 : ℝ) = ((2 : ℕ) : ℝ) by norm_num,
        Real.floor_logb_natCast (by positivity), intLog_ratCast _ hm0]
    rw [hlogb]
    have hexp : min 127 (max (-128) (Int.log 2 (max r (max g b)) + 1))
        = max (-128) (min 127 (Int.log 2 (max r (max g b)) + 1)) := by
      omega
    rw [hexp]
    rw [round_ratCast_scale r, round_ratCast_scale g, round_ratCast_scale b]

/-- C2 witness: the bright pixel `(4, 0, 0)` of the specification's round-trip
scenario, plus the all-zero pixel. -/
theorem rgbe_pixel_matches_spec_witness :
    (0 : ℚ) ≤ 4 ∧ (0 : ℚ) ≤ 0 ∧
      (rgbePixel 4 0 0 = spec_rgbePixel ((4 : ℚ) : ℝ) ((0 : ℚ) : ℝ) ((0 : ℚ) : ℝ) ∧
        rgbePixel 0 0 0 = [0, 0, 0, 0]) :=
  ⟨by norm_num, le_rfl,
    rgbe_pixel_matches_spec 4 0 0 (by norm_num) le_rfl le_rfl⟩

/-! ## HDR byte-stream layout (C4)

The source joins the header line array with `"\n"`, so exactly one newline
terminates the resolution line and the RGBE data follows immediately; there is
no blank line between the resolution line and the data. -/

/-- Byte stream as the claim describes it: header lines each terminated by a
newline, a blank line before the resolution line, the resolution line, then an
additional blank line, then the raw RGBE quadruplets. -/
def spec_claimedHDRFile (floatPixels : List ℚ) (width height : ℕ) : List ℕ :=
  stringBytes ("#?RADIANCE\n" ++ "# Created by Warper App - HDR Export\n" ++
      "FORMAT=32-bit_rle_rgbe\n" ++ "EXPOSURE=1.0\n" ++ "GAMMA=1.0\n" ++ "\n" ++
      (s!"-Y {height} +X {width}" ++ "\n") ++ "\n") ++
    rgbeData floatPixels width height

/-- Amended header: identical up to the resolution line and its terminating
newline, with the RGBE data following immediately (no second blank line). -/
def spec_amendedHDRHeader (width height : ℕ) : String :=
  "#?RADIANCE\n" ++ "# Created by Warper App - HDR Export\n" ++
    "FORMAT=32-bit_rle_rgbe\n" ++ "EXPOSURE=1.0\n" ++ "GAMMA=1.0\n" ++ "\n" ++
    (s!"-Y {height} +X {width}" ++ "\n")

theorem rgbeData_zero16 : rgbeData (List.replicate 16 0) 2 2 = List.replicate 16 0 := by
  have h : rgbeData (List.replicate 16 0) 2 2
      = rgbePixel 0 0 0 ++ (rgbePixel 0 0 0 ++ (rgbePixel 0 0 0 ++ (rgbePixel 0 0 0 ++ []))) := by
    rw [rgbeData]
    rfl
  rw [h, rgbePixel_zero]
  rfl

/-- C4 counterexample.  On a 2×2 all-zero input the produced byte stream is
not equal to the claimed layout: the claimed extra blank line after the
resolution line does not exist in the output. -/
theorem hdr_blank_line_cex :
    createHDRFile (List.replicate 16 0) 2 2 ≠ spec_claimedHDRFile (List.replicate 16 0) 2 2 := by
  simp only [createHDRFile, spec_claimedHDRFile, rgbeData_zero16]
  decide

theorem hdrHeader_eq_amended (width height : ℕ) :
    hdrHeader width height = spec_amendedHDRHeader width height := by
  simp only [hdrHeader, hdrHeaderLines, joinNl, spec_amendedHDRHeader]
  rw [String.append_empty]
  rw [show ("" : String) ++ "\n" = "\n" from rfl]
  rw [show ("#?RADIANCE" : String) ++ "\n" = "#?RADIANCE\n" from rfl]
  rw [show ("# Created by Warper App - HDR Export" : String) ++ "\n"
      = "# Created by Warper App - HDR Export\n" from rfl]
  rw [show ("FORMAT=32-bit_rle_rgbe" : String) ++ "\n" = "FORMAT=32-bit_rle_rgbe\n" from rfl]
  rw [show ("EXPOSURE=1.0" : String) ++ "\n" = "EXPOSURE=1.0\n" from rfl]
  rw [show ("GAMMA=1.0" : String) ++ "\n" = "GAMMA=1.0\n" from rfl]
  simp only [String.append_assoc]

/-- C4 amended.  The byte stream is exactly the ASCII header
(`#?RADIANCE`, comment, `FORMAT=32-bit_rle_rgbe`, `EXPOSURE=1.0`, `GAMMA=1.0`,
blank line, `-Y h +X w`, each line terminated by a newline) followed
immediately by the raw RGBE quadruplets in row-major order — there is no blank
line between the resolution line and the data; for a 2×2 input the header
ends with the resolution line `-Y 2 +X 2`. -/
theorem hdr_stream_amended (floatPixels : List ℚ) (width height : ℕ) :
    createHDRFile floatPixels width height
      = stringBytes (spec_amendedHDRHeader width height) ++ rgbeData floatPixels width height ∧
    hdrHeader 2 2
      = "#?RADIANCE\n# Created by Warper App - HDR Export\nFORMAT=32-bit_rle_rgbe\nEXPOSURE=1.0\nGAMMA=1.0\n\n-Y 2 +X 2\n" := by
  constructor
  · rw [createHDRFile, hdrHeader_eq_amended]
  · rfl

/-! ## History capacity enforcement and stroke commits

Textures are modelled by natural-number identifiers.  `cleanupHistory` follows
`src/utils/webgl.ts` lines 82–98: when the list exceeds `maxSize` it disposes
`history.slice(0, history.length - maxSize)` (sparing the `originalState`
texture) and returns `history.slice(history.length - maxSize)`.  The function
returns the kept list together with the list of disposed textures. -/

/-- Capacity enforcement from `src/utils/webgl.ts` (`cleanupHistory`).  First
component: the list returned; second component: the textures disposed. -/
def cleanupHistory (history : List ℕ) (maxSize : ℕ) (originalState : Option ℕ) :
    List ℕ × List ℕ :=
  if history.length ≤ maxSize then (history, [])
  else
    ((history.drop (history.length - maxSize)),
      (history.take (history.length - maxSize)).filter fun t => !(some t == originalState))

/-- C3.  Evaluating the capacity enforcement on a committed history of 16
entries (entry 0 being the zero-displacement baseline texture `0`, passed as
`originalState`) with capacity 15: the returned list drops entry 0, so its
first entry is the oldest retained stroke snapshot `1`, not the baseline; the
baseline texture itself is spared disposal. -/
theorem cleanup_history_drops_baseline :
    cleanupHistory (List.range 16) 15 (some 0) = ((List.range 16).drop 1, []) ∧
      (cleanupHistory (List.range 16) 15 (some 0)).1.headD 99 = 1 ∧
      (cleanupHistory (List.range 16) 15 (some 0)).1.length = 15 ∧
      ((cleanupHistory (List.range 16) 15 (some 0)).1.headD 99 = 0) = False := by
  decide

/-- Redo handler from `WarperContext.tsx` (`handleRedo`): advance the index
only while it is strictly below `length - 1`. -/
def handleRedo (idx : ℤ) (len : ℕ) : ℤ :=
  if idx < (len : ℤ) - 1 then idx + 1 else idx

/-- Undo handler from `WarperContext.tsx` (`handleUndo`): decrement while
positive. -/
def handleUndo (idx : ℤ) : ℤ :=
  if idx > 0 then idx - 1 else idx

/-- History-change callback from `WarperContext.tsx` (`onHistoryChange`),
capacity 15: oversized lists keep entry 0 plus the newest 14 entries and
dispose the slice `(1, length - 14)`; the index is set to the new tail.
Components: new list, new index, disposed textures. -/
def onHistoryChange (newHistory : List ℕ) : List ℕ × ℤ × List ℕ :=
  if newHistory.length > 15 then
    let trimmed := newHistory.take 1 ++ newHistory.drop (newHistory.length - 15 + 1)
    (trimmed, (trimmed.length : ℤ) - 1, (newHistory.drop 1).take (newHistory.length - 15))
  else
    (newHistory, (newHistory.length : ℤ) - 1, [])

/-- Stroke commit from the `WarpCanvas` `handlePointerUp` (history part):
truncate after the current index, dispose the discarded branch, append the new
snapshot, run `cleanupHistory` (the dispose callback passed in the third
argument never equals a texture, hence `none`), and hand the result to
`onHistoryChange`.  Components: final list, final index, disposed branch. -/
def commitStroke (history : List ℕ) (historyIndex : ℤ) (snapshot : ℕ) (limit : ℕ) :
    List ℕ × ℤ × List ℕ :=
  let preserved := history.take (historyIndex + 1).toNat
  let discarded := history.drop (historyIndex + 1).toNat
  let currentHistory := preserved ++ [snapshot]
  let cleaned := (cleanupHistory currentHistory limit none).1
  let result := onHistoryChange cleaned
  (result.1, result.2.1, discarded)

/-- C5.  Committing a stroke at an index `i` with `0 ≤ i < length - 1` (after
at least one undo) disposes exactly the entries after index `i`, appends the
new snapshot to the entries up to `i` (within capacity the final list is
exactly that truncated list plus the snapshot), sets the history index to the
new tail, and a subsequent redo is a no-op because the index already equals
`length - 1`. -/
theorem commit_stroke_truncates_redo_noop (history : List ℕ) (historyIndex : ℤ)
    (snapshot : ℕ) (limit : ℕ) (h0 : 0 ≤ historyIndex)
    (hlt : historyIndex < (history.length : ℤ) - 1)
    (hcap : history.length ≤ limit) (hlim : limit ≤ 15) :
    (commitStroke history historyIndex snapshot limit).2.2
        = history.drop (historyIndex + 1).toNat ∧
      (commitStroke history historyIndex snapshot limit).1
        = history.take (historyIndex + 1).toNat ++ [snapshot] ∧
      (commitStroke history historyIndex snapshot limit).2.1
        = ((commitStroke history historyIndex snapshot limit).1.length : ℤ) - 1 ∧
      handleRedo (commitStroke history historyIndex snapshot limit).2.1
          (commitStroke history historyIndex snapshot limit).1.length
        = (commitStroke history historyIndex snapshot limit).2.1 := by
  have hfin : (commitStroke history historyIndex snapshot limit).1
      = history.take (historyIndex + 1).toNat ++ [snapshot] := by
    have hlen : (history.take (historyIndex + 1).toNat ++ [snapshot]).length ≤ limit := by
      simp only [List.length_append, List.length_take, List.length_cons, List.length_nil]
      omega
    simp only [commitStroke, cleanupHistory, if_pos hlen, onHistoryChange]
    rw [if_neg (by omega)]
  refine ⟨rfl, hfin, ?_, ?_⟩
  · simp only [commitStroke, onHistoryChange]
    split
    · rfl
    · rfl
  · have hidx : (commitStroke history historyIndex snapshot limit).2.1
        = ((commitStroke history historyIndex snapshot limit).1.length : ℤ) - 1 := by
      simp only [commitStroke, onHistoryChange]
      split
      · rfl
      · rfl
    rw [hidx, handleRedo]
    simp

/-- C5 witness: a concrete commit after one undo (history `[0,1,2]`, index 0). -/
theorem commit_stroke_truncates_redo_noop_witness :
    (0 : ℤ) ≤ 0 ∧ (0 : ℤ) < (([0, 1, 2] : List ℕ).length : ℤ) - 1 ∧
      ([0, 1, 2] : List ℕ).length ≤ 15 ∧ (15 : ℕ) ≤ 15 ∧
      ((commitStroke [0, 1, 2] 0 9 15).2.2 = ([0, 1, 2] : List ℕ).drop ((0 : ℤ) + 1).toNat ∧
        (commitStroke [0, 1, 2] 0 9 15).1
          = ([0, 1, 2] : List ℕ).take ((0 : ℤ) + 1).toNat ++ [9] ∧
        (commitStroke [0, 1, 2] 0 9 15).2.1
          = ((commitStroke [0, 1, 2] 0 9 15).1.length : ℤ) - 1 ∧
        handleRedo (commitStroke [0, 1, 2] 0 9 15).2.1 (commitStroke [0, 1, 2] 0 9 15).1.length
          = (commitStroke [0, 1, 2] 0 9 15).2.1) :=
  ⟨by norm_num, by norm_num, by norm_num, by norm_num,
    commit_stroke_truncates_redo_noop [0, 1, 2] 0 9 15 (by norm_num) (by norm_num)
      (by norm_num) (by norm_num)⟩

/-! ## Brush uniform updates and pointer preview (C10) -/

/-- Uniform block of the brush shader material. -/
structure BrushUniforms where
  uBrushSize : ℚ
  uBrushStrength : ℚ
  uAspect : ℚ
deriving DecidableEq

/-- Parameter-change effect (`useEffect` on `[brushSize, brushStrength, zoom]`):
`uBrushSize = brushSize / 200 / zoom`, `uBrushStrength = brushStrength / 100`. -/
def brushParamsEffect (brushSize brushStrength zoom : ℚ) (u : BrushUniforms) :
    BrushUniforms :=
  { u with uBrushSize := brushSize / 200 / zoom, uBrushStrength := brushStrength / 100 }

/-- Per-frame uniform update issued immediately before the accumulation pass
(`useFrame` warp branch): `uBrushSize = brushSize / 200.0` (no zoom division),
`uBrushStrength = brushStrength / 100.0`, `uAspect = scaleX / scaleY`. -/
def brushFrameUpdate (brushSize brushStrength aspect : ℚ) (u : BrushUniforms) :
    BrushUniforms :=
  { u with
      uBrushSize := brushSize / 200
      uBrushStrength := brushStrength / 100
      uAspect := aspect }

/-- On-screen pointer-preview circle diameter computed in `useFrame`:
`((brushSize / 200) * displayHeightPx) / zoom`. -/
def previewDiameter (brushSize displayHeightPx zoom : ℚ) : ℚ :=
  brushSize / 200 * displayHeightPx / zoom

/-- C10.  On a frame that issues an accumulation pass the brush-size uniform is
`brushSize / 200`, overwriting the zoom-dependent `brushSize / 200 / zoom`
installed by the parameter effect; the warping radius is therefore independent
of the zoom, while the preview diameter `(brushSize/200)·H/zoom` strictly
shrinks as zoom grows. -/
theorem brush_uniform_zoom_independent (b s z a hpx z1 z2 : ℚ) (u u1 u2 : BrushUniforms)
    (hb : 0 < b) (hH : 0 < hpx) (h1 : 0 < z1) (h12 : z1 < z2) :
    (brushFrameUpdate b s a (brushParamsEffect b s z u)).uBrushSize = b / 200 ∧
      (brushParamsEffect b s z u).uBrushSize = b / 200 / z ∧
      (brushFrameUpdate b s a (brushParamsEffect b s z1 u1)).uBrushSize
        = (brushFrameUpdate b s a (brushParamsEffect b s z2 u2)).uBrushSize ∧
      previewDiameter b hpx z2 < previewDiameter b hpx z1 := by
  refine ⟨rfl, rfl, rfl, ?_⟩
  have hnum : 0 < b / 200 * hpx := by positivity
  exact div_lt_div_of_pos_left hnum h1 h12

/-- C10 witness: brush size 50, display height 400 px, zooms 1 and 2. -/
theorem brush_uniform_zoom_independent_witness :
    (0 : ℚ) < 50 ∧ (0 : ℚ) < 400 ∧ (0 : ℚ) < 1 ∧ (1 : ℚ) < 2 ∧
      ((brushFrameUpdate 50 50 1 (brushParamsEffect 50 50 1 ⟨0, 0, 1⟩)).uBrushSize = 50 / 200 ∧
        (brushParamsEffect 50 50 1 ⟨0, 0, 1⟩).uBrushSize = 50 / 200 / 1 ∧
        (brushFrameUpdate 50 50 1 (brushParamsEffect 50 50 1 ⟨0, 0, 1⟩)).uBrushSize
          = (brushFrameUpdate 50 50 1 (brushParamsEffect 50 50 2 ⟨0, 0, 1⟩)).uBrushSize ∧
        previewDiameter 50 400 2 < previewDiameter 50 400 1) :=
  ⟨by norm_num, by norm_num, by norm_num, by norm_num,
    brush_uniform_zoom_independent 50 50 1 1 400 1 2 ⟨0, 0, 1⟩ ⟨0, 0, 1⟩ ⟨0, 0, 1⟩
      (by norm_num) (by norm_num) (by norm_num) (by norm_num)⟩

/-! ## Brush accumulation shader (`src/shaders/brushShader.ts`)

The fragment shader is modelled over `ℝ`: `length` is the Euclidean norm and
GLSL `pow` on the non-negative clamped base is real exponentiation. -/

/-- GLSL `mix(x, y, a) = x*(1-a) + y*a`. -/
def glslMix (x y a : ℝ) : ℝ :=
  x * (1 - a) + y * a

/-- GLSL `clamp(x, lo, hi) = min(max(x, lo), hi)`. -/
def glslClamp (x lo hi : ℝ) : ℝ :=
  min (max x lo) hi

/-- GLSL `length` of a 2-vector. -/
noncomputable def glslLength2 (v : ℝ × ℝ) : ℝ :=
  Real.sqrt (v.1 ^ 2 + v.2 ^ 2)

/-- Brush falloff term of the fragment shader:
`pow(clamp(1.0 - dist/uBrushSize, 0.0, 1.0), mix(1.0, 8.0, clamp(uBrushStrength, 0.0, 1.0)))`. -/
noncomputable def brushFalloff (uBrushSize uBrushStrength dist : ℝ) : ℝ :=
  glslClamp (1 - dist / uBrushSize) 0 1 ^ glslMix 1 8 (glslClamp uBrushStrength 0 1)

/-- Fragment shader of `BrushShader`: reads the previous displacement, and when
the aspect-corrected distance to `uMouse` is below `uBrushSize` adds
`(uMouse - uPrevMouse) * falloff * uBrushStrength`; otherwise the displacement
passes through unchanged. -/
noncomputable def brushFragment (uMouse uPrevMouse : ℝ × ℝ)
    (uBrushSize uBrushStrength uAspect : ℝ) (prevDisp : ℝ × ℝ) (vUv : ℝ × ℝ) : ℝ × ℝ :=
  let dist := glslLength2 ((vUv.1 - uMouse.1) * uAspect, vUv.2 - uMouse.2)
  if dist < uBrushSize then
    let falloff := brushFalloff uBrushSize uBrushStrength dist
    (prevDisp.1 + (uMouse.1 - uPrevMouse.1) * falloff * uBrushStrength,
      prevDisp.2 + (uMouse.2 - uPrevMouse.2) * falloff * uBrushStrength)
  else
    prevDisp

/-- Linear interpolation as the specification writes it: `lerp(a,b,t) = a + (b-a)*t`. -/
def spec_lerp (a b t : ℝ) : ℝ :=
  a + (b - a) * t

/-- Specification-side brush update, written from the specification text:
`dist = length((p - currentUV) * (aspect, 1))`; inside the radius
`normalized = dist / brushSizeUV`, `exponent = lerp(1, 8, clamp(strength,0,1))`,
`falloff = clamp(1 - normalized, 0, 1) ^ exponent`,
new displacement = old + `(currentUV - prevUV) * falloff * strength`; outside,
the stored displacement is unchanged. -/
noncomputable def spec_brushUpdate (currentUV prevUV : ℝ × ℝ)
    (brushSizeUV strength aspect : ℝ) (oldDisp : ℝ × ℝ) (p : ℝ × ℝ) : ℝ × ℝ :=
  let dist := Real.sqrt (((p.1 - currentUV.1) * aspect) ^ 2 + (p.2 - currentUV.2) ^ 2)
  if dist < brushSizeUV then
    let normalized := dist / brushSizeUV
    let falloff := min (max (1 - normalized) 0) 1 ^ spec_lerp 1 8 (min (max strength 0) 1)
    (oldDisp.1 + (currentUV.1 - prevUV.1) * falloff * strength,
      oldDisp.2 + (currentUV.2 - prevUV.2) * falloff * strength)
  else
    oldDisp

theorem glslMix_eq_lerp (x y a : ℝ) : glslMix x y a = spec_lerp x y a := by
  simp only [glslMix, spec_lerp]
  ring

/-- C1.  For every texel `p`, uniform values and stored displacement, the
brush fragment shader computes exactly the specified update: inside the brush
radius it adds `(currentUV - prevUV) * falloff * strength` with
`falloff = clamp(1 - dist/brushSizeUV, 0, 1) ^ lerp(1, 8, clamp(strength,0,1))`,
and at or beyond the radius the stored displacement is written out unchanged
(`uMouse` is driven with the current pointer UV and `uPrevMouse` with the
previous one). -/
theorem brush_fragment_matches_spec (currentUV prevUV : ℝ × ℝ)
    (brushSizeUV strength aspect : ℝ) (oldDisp : ℝ × ℝ) (p : ℝ × ℝ) :
    brushFragment currentUV prevUV brushSizeUV strength aspect oldDisp p
      = spec_brushUpdate currentUV prevUV brushSizeUV strength aspect oldDisp p := by
  simp only [brushFragment, spec_brushUpdate, brushFalloff, glslLength2, glslClamp,
    glslMix_eq_lerp]

/-- C9.  For fixed strength and brush size (positive), the falloff is
non-increasing in the distance on `[0, brushSize)`, and any texel at distance
at or beyond the brush size keeps its stored displacement exactly (zero
applied delta). -/
theorem brush_falloff_monotone_zero_outside (bs s : ℝ) (hbs : 0 < bs) :
    (∀ d1 d2 : ℝ, 0 ≤ d1 → d1 ≤ d2 → d2 < bs →
        brushFalloff bs s d2 ≤ brushFalloff bs s d1) ∧
      (∀ (m pm disp p : ℝ × ℝ) (a : ℝ),
        bs ≤ glslLength2 ((p.1 - m.1) * a, p.2 - m.2) →
        brushFragment m pm bs s a disp p = disp) := by
  constructor
  · intro d1 d2 hd1 hd12 _
    have ht0 : 0 ≤ glslClamp s 0 1 := by
      simp only [glslClamp]
      have h1 : (0:ℝ) ≤ max s 0 := le_max_right s 0
      exact le_min h1 zero_le_one
    have hE : 0 ≤ glslMix 1 8 (glslClamp s 0 1) := by
      have ht1 : glslClamp s 0 1 ≤ 1 := min_le_right _ 1
      simp only [glslMix]
      nlinarith
    have hbase2 : (0:ℝ) ≤ glslClamp (1 - d2 / bs) 0 1 := by
      simp only [glslClamp]
      exact le_min (le_max_right _ 0) zero_le_one
    have hdiv : d1 / bs ≤ d2 / bs := by
      exact div_le_div_of_nonneg_right hd12 hbs.le
    have hbase12 : glslClamp (1 - d2 / bs) 0 1 ≤ glslClamp (1 - d1 / bs) 0 1 := by
      simp only [glslClamp]
      have h1 : (1 - d2 / bs) ≤ (1 - d1 / bs) := by linarith
      exact min_le_min (max_le_max h1 le_rfl) le_rfl
    exact Real.rpow_le_rpow hbase2 hbase12 hE
  · intro m pm disp p a hdist
    simp only [brushFragment]
    rw [if_neg (not_lt.mpr hdist)]

/-- C9 witness: brush size 1, strength 1/2; distances 0 and 1/2 inside the
radius, a texel at distance 2 outside it. -/
theorem brush_falloff_monotone_zero_outside_witness :
    (0:ℝ) < 1 ∧
      (brushFalloff 1 (1/2) (1/2) ≤ brushFalloff 1 (1/2) 0 ∧
        brushFragment (0, 0) (0, 0) 1 (1/2) 1 (3, 4) (2, 0) = (3, 4)) :=
  ⟨by norm_num,
    (brush_falloff_monotone_zero_outside 1 (1/2) (by norm_num)).1 0 (1/2)
      le_rfl (by norm_num) (by norm_num),
    (brush_falloff_monotone_zero_outside 1 (1/2) (by norm_num)).2 (0, 0) (0, 0) (3, 4) (2, 0) 1
      (by
        simp only [glslLength2]
        rw [show ((2:ℝ) - 0) * 1 = 2 by norm_num]
        rw [show ((0:ℝ) - 0) = 0 by norm_num]
        rw [show ((2:ℝ)) ^ 2 + 0 ^ 2 = 4 by norm_num]
        rw [show ((4:ℝ)) = 2 ^ 2 by norm_num, Real.sqrt_sq (by norm_num)]
        norm_num)⟩

/-! ## Display/export compositor (`src/shaders/displayShader.ts` and the HDR
export shader of the warp canvas)

Colors are triples of rationals; the original texture and the displacement map
are abstract functions of UV; `encode` stands for the `colorspace_fragment`
linear-to-display transfer appended by three.js. -/

/-- Tone pipeline of `DisplayShader` on one channel, in source order: exposure
multiply, black-point subtraction clamped at 0, Reinhard compression against
`max(uWhitePoint, 1e-4)`, tint multiply. -/
def toneMapChannel (uExposure uBlackPoint uWhitePoint tint c : ℚ) : ℚ :=
  let c1 := c * uExposure
  let c2 := max (c1 - uBlackPoint) 0
  let c3 := c2 / (1 + c2 / max uWhitePoint (1 / 10 ^ 4))
  c3 * tint

/-- Fragment shader of `DisplayShader`: sample the original texture at
`vUv - displacement(vUv)`, run the tone pipeline per channel, then apply the
output color-space encoding (`#include <colorspace_fragment>`). -/
def displayFragment (tex : ℚ × ℚ → ℚ × ℚ × ℚ) (dispMap : ℚ × ℚ → ℚ × ℚ)
    (encode : ℚ × ℚ × ℚ → ℚ × ℚ × ℚ) (uExposure uBlackPoint uWhitePoint : ℚ)
    (uTint : ℚ × ℚ × ℚ) (vUv : ℚ × ℚ) : ℚ × ℚ × ℚ :=
  let disp := dispMap vUv
  let color := tex (vUv.1 - disp.1, vUv.2 - disp.2)
  encode (toneMapChannel uExposure uBlackPoint uWhitePoint uTint.1 color.1,
    toneMapChannel uExposure uBlackPoint uWhitePoint uTint.2.1 color.2.1,
    toneMapChannel uExposure uBlackPoint uWhitePoint uTint.2.2 color.2.2)

/-- Replacement fragment shader installed by `exportAtResolution` for HDR
export: raw linear sample at `vUv - displacement(vUv)`, no tone adjustment and
no color-space encoding. -/
def hdrExportFragment (tex : ℚ × ℚ → ℚ × ℚ × ℚ) (dispMap : ℚ × ℚ → ℚ × ℚ)
    (vUv : ℚ × ℚ) : ℚ × ℚ × ℚ :=
  let disp := dispMap vUv
  tex (vUv.1 - disp.1, vUv.2 - disp.2)

/-- The three compositor modes. -/
inductive CompositorMode
  | preview
  | standardExport
  | hdrExport

/-- Mode dispatch of the compositor: preview and standard export run the
`DisplayShader` fragment; HDR export runs the stripped raw-linear fragment. -/
def compositorFragment (mode : CompositorMode) (tex : ℚ × ℚ → ℚ × ℚ × ℚ)
    (dispMap : ℚ × ℚ → ℚ × ℚ) (encode : ℚ × ℚ × ℚ → ℚ × ℚ × ℚ)
    (uExposure uBlackPoint uWhitePoint : ℚ) (uTint : ℚ × ℚ × ℚ)
    (vUv : ℚ × ℚ) : ℚ × ℚ × ℚ :=
  match mode with
  | .preview => displayFragment tex dispMap encode uExposure uBlackPoint uWhitePoint uTint vUv
  | .standardExport =>
      displayFragment tex dispMap encode uExposure uBlackPoint uWhitePoint uTint vUv
  | .hdrExport => hdrExportFragment tex dispMap vUv

/-- Specification-side tone steps, written from the specification text. -/
def spec_applyExposure (e c : ℚ) : ℚ :=
  c * e

/-- Black-point subtraction clamped at `≥ 0`. -/
def spec_blackPoint (bp c : ℚ) : ℚ :=
  max (c - bp) 0

/-- Reinhard-style white-point compression `c / (1 + c / whitePoint)`. -/
def spec_reinhard (wp c : ℚ) : ℚ :=
  c / (1 + c / wp)

/-- Tint multiplication. -/
def spec_tint (t c : ℚ) : ℚ :=
  c * t

/-- Specification tone pipeline in order: exposure, black point, Reinhard,
tint. -/
def spec_toneChannel (e bp wp t c : ℚ) : ℚ :=
  spec_tint t (spec_reinhard wp (spec_blackPoint bp (spec_applyExposure e c)))

/-- C6.  For whitepoint uniforms not below `1e-4` (both app defaults, 10 and
1000, qualify), preview and standard-export compositing equal the gamma/color
encoding of the specified ordered tone pipeline applied to the color sampled
at `uv - displacement(uv)`, while HDR export emits exactly the raw linear
sampled color with no tone step and no encoding. -/
theorem compositor_modes_match_spec (tex : ℚ × ℚ → ℚ × ℚ × ℚ)
    (dispMap : ℚ × ℚ → ℚ × ℚ) (encode : ℚ × ℚ × ℚ → ℚ × ℚ × ℚ)
    (e bp wp : ℚ) (tint : ℚ × ℚ × ℚ) (uv : ℚ × ℚ) (hwp : 1 / 10 ^ 4 ≤ wp) :
    (compositorFragment .preview tex dispMap encode e bp wp tint uv
        = encode (spec_toneChannel e bp wp tint.1
              (tex (uv.1 - (dispMap uv).1, uv.2 - (dispMap uv).2)).1,
            spec_toneChannel e bp wp tint.2.1
              (tex (uv.1 - (dispMap uv).1, uv.2 - (dispMap uv).2)).2.1,
            spec_toneChannel e bp wp tint.2.2
              (tex (uv.1 - (dispMap uv).1, uv.2 - (dispMap uv).2)).2.2)) ∧
      (compositorFragment .standardExport tex dispMap encode e bp wp tint uv
        = compositorFragment .preview tex dispMap encode e bp wp tint uv) ∧
      (compositorFragment .hdrExport tex dispMap encode e bp wp tint uv
        = tex (uv.1 - (dispMap uv).1, uv.2 - (dispMap uv).2)) := by
  have hmax : max wp (1 / 10 ^ 4) = wp := max_eq_left hwp
  refine ⟨?_, rfl, rfl⟩
  simp only [compositorFragment, displayFragment, toneMapChannel, spec_toneChannel,
    spec_tint, spec_reinhard, spec_blackPoint, spec_applyExposure, hmax]

/-- C6 witness: constant texture, zero displacement, identity encode, default
uniform values (exposure 1, black point 0, white point 1000, unit tint). -/
theorem compositor_modes_match_spec_witness :
    (1 / 10 ^ 4 : ℚ) ≤ 1000 ∧
      (compositorFragment .preview (fun _ => (1, 2, 3)) (fun _ => (0, 0)) id
          1 0 1000 (1, 1, 1) (0, 0)
        = id (spec_toneChannel 1 0 1000 1 ((1 : ℚ), (2 : ℚ), (3 : ℚ)).1,
            spec_toneChannel 1 0 1000 1 ((1 : ℚ), (2 : ℚ), (3 : ℚ)).2.1,
            spec_toneChannel 1 0 1000 1 ((1 : ℚ), (2 : ℚ), (3 : ℚ)).2.2) ∧
        compositorFragment .standardExport (fun _ => (1, 2, 3)) (fun _ => (0, 0)) id
            1 0 1000 (1, 1, 1) (0, 0)
          = compositorFragment .preview (fun _ => (1, 2, 3)) (fun _ => (0, 0)) id
            1 0 1000 (1, 1, 1) (0, 0) ∧
        compositorFragment .hdrExport (fun _ => (1, 2, 3)) (fun _ => (0, 0)) id
            1 0 1000 (1, 1, 1) (0, 0) = (1, 2, 3)) := by
  constructor
  · norm_num
  · have h := compositor_modes_match_spec (fun _ => ((1 : ℚ), (2 : ℚ), (3 : ℚ)))
      (fun _ => ((0 : ℚ), (0 : ℚ))) id 1 0 1000 (1, 1, 1) (0, 0) (by norm_num)
    exact ⟨h.1, h.2.1, h.2.2⟩

/-! ## Export argument validation (`exportAtResolution`)

JavaScript values relevant to the validation cascade are modelled by a small
inductive type; numbers distinguish finite rationals from `NaN` and the two
infinities.  The render path (GPU readback and canvas production) is an
abstract parameter: the validation cascade either returns the empty
placeholder canvas (`document.createElement("canvas")`) with an error report
and the state untouched, or defers to the render path. -/

/-- JavaScript number: finite value, `NaN`, or an infinity. -/
inductive JSNum
  | fin (q : ℚ)
  | nan
  | posInf
  | negInf
deriving DecidableEq

/-- `Number.isFinite`. -/
def JSNum.isFinite : JSNum → Bool
  | .fin _ => true
  | _ => false

/-- The JavaScript comparison `x <= 0` (false on `NaN`). -/
def JSNum.leZero : JSNum → Bool
  | .fin q => decide (q ≤ 0)
  | .nan => false
  | .posInf => false
  | .negInf => true

/-- JavaScript falsiness of a number (`!x`): true for `0` and `NaN`. -/
def JSNum.falsy : JSNum → Bool
  | .fin q => decide (q = 0)
  | .nan => true
  | _ => false

/-- The finite value (used only after validation has established finiteness). -/
def JSNum.ratVal : JSNum → ℚ
  | .fin q => q
  | _ => 0

/-- JavaScript argument values seen by the export function. -/
inductive JSVal
  | num (n : JSNum)
  | nullVal
  | emptyObj
  | optionsObj (hdr : Bool)
  | otherObj
  | nonObj
deriving DecidableEq

/-- The JavaScript test `typeof v === "object"` (true for `null`). -/
def JSVal.typeofIsObject : JSVal → Bool
  | .num _ => false
  | .nullVal => true
  | .emptyObj => true
  | .optionsObj _ => true
  | .otherObj => true
  | .nonObj => false

/-- Reading `options?.hdr === true` from the optional third argument. -/
def readHdrFlag (args : List JSVal) : Bool :=
  match args.getD 2 JSVal.nonObj with
  | .optionsObj h => h
  | _ => false

/-- Result canvas of the export function. -/
inductive ExportCanvas
  | emptyPlaceholder
  | produced (w h : ℚ) (hdr : Bool)
deriving DecidableEq

/-- Validation cascade of `exportAtResolution`, translated check by check from
the warp canvas source; `renderPath` abstracts the rendering tail of the
function, `st` is the surrounding mutable state (displacement buffers and
history), threaded untouched through every rejection branch.  The second
result component records that a warning/error was reported to the console. -/
def exportAtResolution {σ : Type} (renderPath : ℚ → ℚ → Bool → σ → ExportCanvas × σ)
    (isInit texReady : Bool) (args : List JSVal) (st : σ) : ExportCanvas × Bool × σ :=
  if isInit = false then (.emptyPlaceholder, true, st)
  else if args.length = 1 ∧ (args.headD .nonObj).typeofIsObject = true then
    (.emptyPlaceholder, true, st)
  else if args.length < 2 ∨ args.length > 3 then (.emptyPlaceholder, true, st)
  else
    match args.getD 0 .nonObj, args.getD 1 .nonObj with
    | .num w, .num h =>
        if (!w.isFinite || !h.isFinite || w.leZero || h.leZero) = true then
          (.emptyPlaceholder, true, st)
        else if (w.falsy || h.falsy || w.leZero || h.leZero) = true then
          (.emptyPlaceholder, true, st)
        else if texReady = false then (.emptyPlaceholder, true, st)
        else
          let out := renderPath w.ratVal h.ratVal (readHdrFlag args) st
          (out.1, false, out.2)
    | _, _ => (.emptyPlaceholder, true, st)

/-- Invalid calls as the claim describes them: malformed argument lists (wrong
arity or non-number width/height), or width/height non-finite, zero or
negative. -/
def argsInvalid (args : List JSVal) : Bool :=
  match args with
  | [JSVal.num w, JSVal.num h] =>
      !w.isFinite || !h.isFinite || w.leZero || h.leZero
  | [JSVal.num w, JSVal.num h, _] =>
      !w.isFinite || !h.isFinite || w.leZero || h.leZero
  | _ => true

/-- C7.  Every call with invalid dimensions or a malformed argument list is
rejected by the validation cascade: no exception escapes (the function is
total), an error is reported, the empty placeholder canvas is returned, the
render path is never consulted and the displacement/history state is returned
untouched. -/
theorem export_invalid_args_placeholder {σ : Type}
    (renderPath : ℚ → ℚ → Bool → σ → ExportCanvas × σ) (isInit texReady : Bool)
    (args : List JSVal) (st : σ) (h : argsInvalid args = true) :
    exportAtResolution renderPath isInit texReady args st
      = (.emptyPlaceholder, true, st) := by
  cases isInit with
  | false => rfl
  | true =>
    rcases args with _ | ⟨a, _ | ⟨b, _ | ⟨c, _ | ⟨d, tl⟩⟩⟩⟩
    · rfl
    · cases a <;> rfl
    · cases a <;> cases b <;>
        first
          | rfl
          | (simp only [argsInvalid] at h
             simp [exportAtResolution, h])
    · cases a <;> cases b <;>
        first
          | rfl
          | (simp only [argsInvalid] at h
             simp [exportAtResolution, h])
    · have hcond : (a :: b :: c :: d :: tl).length < 2 ∨ (a :: b :: c :: d :: tl).length > 3 := by
        simp
      simp [exportAtResolution, hcond]

/-- C7 witness: a call with a negative width. -/
theorem export_invalid_args_placeholder_witness :
    argsInvalid [JSVal.num (JSNum.fin (-1)), JSVal.num (JSNum.fin 5)] = true ∧
      exportAtResolution (σ := ℕ) (fun w h hdr st => (.produced w h hdr, st + 1)) true true
          [JSVal.num (JSNum.fin (-1)), JSVal.num (JSNum.fin 5)] 0
        = (.emptyPlaceholder, true, 0) :=
  ⟨by norm_num [argsInvalid, JSNum.isFinite, JSNum.leZero],
    export_invalid_args_placeholder (fun w h hdr st => (.produced w h hdr, st + 1)) true true
      [JSVal.num (JSNum.fin (-1)), JSVal.num (JSNum.fin 5)] 0
      (by norm_num [argsInvalid, JSNum.isFinite, JSNum.leZero])⟩

/-! ## Pointer/touch interaction state machine (C8)

The warp canvas tracks the interaction through the boolean state variables
`isWarping`, `isPanning`, `isTwoFingerGesture`, `isDragStarted`,
`isWarpingDelayed`, a pending delayed-warp timer, the space key, and the
compare-mode flag.  Each event handler is one transition. -/

/-- Component interaction state: the React boolean state variables plus the
pending delayed-warp timer. -/
structure GestureState where
  isWarping : Bool
  isPanning : Bool
  isTwoFingerGesture : Bool
  isDragStarted : Bool
  isWarpingDelayed : Bool
  warpDelayPending : Bool
  spacePressed : Bool
  isComparing : Bool
deriving DecidableEq

/-- Pointer device classes. -/
inductive PointerKind
  | mouse
  | touch
  | pen
deriving DecidableEq, BEq

/-- Interaction events delivered to the handlers.  `pointerMoveBeyond` is a
pointer move whose screen distance from the drag start exceeds the
`DRAG_THRESHOLD`; `warpDelayElapsed` is the `WARP_DELAY` timer firing. -/
inductive GestureEvent
  | keyDownSpace
  | keyUpSpace
  | pointerDown (kind : PointerKind)
  | pointerMoveBeyond (kind : PointerKind)
  | warpDelayElapsed
  | pointerUp
  | pointerOut
  | touchStart (touches : ℕ)
  | touchMove (touches : ℕ)
  | touchEnd (touches : ℕ)
  | setComparing (b : Bool)

/-- All flags down. -/
def initGestureState : GestureState :=
  ⟨false, false, false, false, false, false, false, false⟩

/-- One handler invocation, translated from the warp canvas event handlers. -/
def gestureStep (s : GestureState) : GestureEvent → GestureState
  | .keyDownSpace => { s with spacePressed := true }
  | .keyUpSpace => { s with spacePressed := false, isPanning := false }
  | .pointerDown kind =>
      if s.isTwoFingerGesture || s.isComparing then s
      else
        let s1 := { s with warpDelayPending := false }
        if s1.spacePressed then { s1 with isPanning := true }
        else if !s1.isPanning then
          if kind == PointerKind.mouse then
            { s1 with isDragStarted := true, isWarping := true, isWarpingDelayed := true }
          else { s1 with isDragStarted := false, isWarpingDelayed := false }
        else s1
  | .pointerMoveBeyond kind =>
      if s.isPanning && !s.isTwoFingerGesture then s
      else if !s.isPanning && !s.isTwoFingerGesture && !s.spacePressed && !s.isComparing
          && !(kind == PointerKind.mouse) && !s.isDragStarted && !s.isWarping then
        { s with isDragStarted := true, warpDelayPending := true }
      else s
  | .warpDelayElapsed =>
      if s.warpDelayPending then
        { s with isWarping := true, isWarpingDelayed := true, warpDelayPending := false }
      else s
  | .pointerUp =>
      let s1 := { s with warpDelayPending := false }
      if s1.isPanning then { s1 with isPanning := false }
      else { s1 with isWarping := false, isDragStarted := false, isWarpingDelayed := false }
  | .pointerOut =>
      let s1 := { s with warpDelayPending := false }
      let s2 :=
        if s1.isPanning then { s1 with isPanning := false }
        else { s1 with isWarping := false, isDragStarted := false, isWarpingDelayed := false }
      { s2 with isDragStarted := false, isWarping := false, isWarpingDelayed := false }
  | .touchStart n =>
      if n = 2 then
        { s with
            warpDelayPending := false
            isTwoFingerGesture := true
            isPanning := true
            isWarping := false
            isDragStarted := false
            isWarpingDelayed := false }
      else if n = 1 then
        { s with
            isTwoFingerGesture := false
            isDragStarted := false
            isWarping := false
            isWarpingDelayed := false }
      else s
  | .touchMove _ => s
  | .touchEnd n =>
      if n < 2 then
        let s1 :=
          { s with
              warpDelayPending := false
              isPanning := false
              isTwoFingerGesture := false }
        if n = 0 then
          { s1 with isDragStarted := false, isWarping := false, isWarpingDelayed := false }
        else s1
      else s
  | .setComparing b => { s with isComparing := b }

/-- Run a sequence of events from the initial state. -/
def runGesture (evs : List GestureEvent) : GestureState :=
  evs.foldl gestureStep initGestureState

/-- Inductive invariant: warping never coexists with a two-finger gesture, and
no delayed-warp timer is pending during a two-finger gesture. -/
def gestureInv (s : GestureState) : Bool :=
  !(s.isWarping && s.isTwoFingerGesture) && !(s.warpDelayPending && s.isTwoFingerGesture)

theorem gestureStep_preserves_inv (s : GestureState) (e : GestureEvent)
    (h : gestureInv s = true) : gestureInv (gestureStep s e) = true := by
  obtain ⟨w, p, t, d, wd, tp, sp, c⟩ := s
  cases e with
  | keyDownSpace => revert w p t d wd tp sp c; decide
  | keyUpSpace => revert w p t d wd tp sp c; decide
  | pointerDown kind => cases kind <;> revert w p t d wd tp sp c <;> decide
  | pointerMoveBeyond kind => cases kind <;> revert w p t d wd tp sp c <;> decide
  | warpDelayElapsed => revert w p t d wd tp sp c; decide
  | pointerUp => revert w p t d wd tp sp c; decide
  | pointerOut => revert w p t d wd tp sp c; decide
  | touchStart n =>
      by_cases h2 : n = 2
      · subst h2; revert w p t d wd tp sp c; decide
      · by_cases h1 : n = 1
        · subst h1; revert w p t d wd tp sp c; decide
        · simpa [gestureStep, if_neg h2, if_neg h1] using h
  | touchMove n => simpa [gestureStep] using h
  | touchEnd n =>
      by_cases hlt : n < 2
      · by_cases h0 : n = 0
        · subst h0; revert w p t d wd tp sp c; decide
        · have h1 : n = 1 := by omega
          subst h1; revert w p t d wd tp sp c; decide
      · simpa [gestureStep, if_neg hlt] using h
  | setComparing b => cases b <;> revert w p t d wd tp sp c <;> decide

theorem runGesture_inv (evs : List GestureEvent) : gestureInv (runGesture evs) = true := by
  suffices hgen : ∀ (l : List GestureEvent) (s : GestureState), gestureInv s = true →
      gestureInv (l.foldl gestureStep s) = true by
    exact hgen evs initGestureState rfl
  intro l
  induction l with
  | nil => intro s hs; exact hs
  | cons e tl ih =>
      intro s hs
      exact ih (gestureStep s e) (gestureStep_preserves_inv s e hs)

/-- C8 counterexample.  The claim that at most one of
{Warping, Panning, TwoFingerGesture} is active fails: after a two-finger
`touchstart` from the initial state (a reachable state), the handler has set
both `isPanning` and `isTwoFingerGesture`. -/
theorem gesture_exclusivity_cex :
    (runGesture [GestureEvent.touchStart 2]).isPanning = true ∧
      (runGesture [GestureEvent.touchStart 2]).isTwoFingerGesture = true := by
  decide

/-- C8 amended.  In every reachable state, Warping never coexists with the
two-finger gesture state (Panning, however, is set together with
TwoFingerGesture, as two-finger pan); and a second touch point appearing at
any time preempts an in-progress warp: the `touchstart` handler with two
touches clears Warping and its sub-flags, cancels the pending delayed-warp
timer, and enters the two-finger gesture state. -/
theorem warp_twofinger_exclusive :
    (∀ evs : List GestureEvent,
        ((runGesture evs).isWarping && (runGesture evs).isTwoFingerGesture) = false) ∧
      (∀ s : GestureState,
        (gestureStep s (.touchStart 2)).isTwoFingerGesture = true ∧
        (gestureStep s (.touchStart 2)).isWarping = false ∧
        (gestureStep s (.touchStart 2)).warpDelayPending = false ∧
        (gestureStep s (.touchStart 2)).isDragStarted = false ∧
        (gestureStep s (.touchStart 2)).isWarpingDelayed = false ∧
        (gestureStep s (.touchStart 2)).isPanning = true) := by
  constructor
  · intro evs
    have h := runGesture_inv evs
    simp only [gestureInv, Bool.and_eq_true, Bool.not_eq_true'] at h
    exact h.1
  · intro s
    simp [gestureStep]

end Warper
